import Mathlib

/-!
Shallow embedding of `src/i18n/constants.ts` of the claudian repository:
a static locale registry with pure lookup, formatting, grouping and
font-selection helpers. TypeScript strings are modelled as `String`,
the `Locale` type (a union of string-literal codes) as `String`, optional
fields as `Option`, record tables as association lists in declaration
order, and `undefined` results as `none`. All functions in the source
are pure and total, so they become plain Lean functions.
-/

namespace Claudian

/-- Locale metadata record, mirroring the `LocaleInfo` interface:
`code`, native `name`, `englishName`, and an optional `flag` emoji
(`flag?: string` becomes `Option String`). -/
structure LocaleInfo where
  code : String
  name : String
  englishName : String
  flag : Option String
deriving DecidableEq, Repr

/-- The canonical registry `SUPPORTED_LOCALES`, in source declaration order. -/
def SUPPORTED_LOCALES : List LocaleInfo :=
  [ { code := "en",    name := "English",   englishName := "English",             flag := some "🇺🇸" },
    { code := "zh-CN", name := "简体中文",   englishName := "Simplified Chinese",  flag := some "🇨🇳" },
    { code := "zh-TW", name := "繁體中文",   englishName := "Traditional Chinese", flag := some "🇹🇼" },
    { code := "ja",    name := "日本語",     englishName := "Japanese",            flag := some "🇯🇵" },
    { code := "ko",    name := "한국어",     englishName := "Korean",              flag := some "🇰🇷" },
    { code := "de",    name := "Deutsch",   englishName := "German",              flag := some "🇩🇪" },
    { code := "fr",    name := "Français",  englishName := "French",              flag := some "🇫🇷" },
    { code := "es",    name := "Español",   englishName := "Spanish",             flag := some "🇪🇸" },
    { code := "ru",    name := "Русский",   englishName := "Russian",             flag := some "🇷🇺" },
    { code := "pt",    name := "Português", englishName := "Portuguese",          flag := some "🇧🇷" } ]

/-- The constant `DEFAULT_LOCALE = 'en'`. -/
def DEFAULT_LOCALE : String := "en"

/-- Lookup `getLocaleInfo`: first registry record whose `code` equals the
input (`Array.prototype.find` with `locale.code === code`), `undefined`
(here `none`) when absent. -/
def getLocaleInfo (code : String) : Option LocaleInfo :=
  SUPPORTED_LOCALES.find? (fun locale => locale.code == code)

/-- Formatter `getLocaleDisplayString`. The source returns the raw code
when lookup fails, and otherwise formats with the flag exactly when
`includeFlag && info.flag` is truthy - so an absent flag, or an empty
flag string (JS falsiness), drops the flag part. -/
def getLocaleDisplayString (code : String) (includeFlag : Bool) : String :=
  match getLocaleInfo code with
  | none => code
  | some info =>
    if includeFlag then
      match info.flag with
      | some f =>
        if f = "" then info.name ++ " (" ++ info.englishName ++ ")"
        else f ++ " " ++ info.name ++ " (" ++ info.englishName ++ ")"
      | none => info.name ++ " (" ++ info.englishName ++ ")"
    else info.name ++ " (" ++ info.englishName ++ ")"

/-- Ordering on records used by `getLocalesForDropdown`: ascending
`englishName` under `localeCompare`. On the registry's all-ASCII English
names, locale-aware collation coincides with the code-unit order, so it
is modelled by the linear order on `String`. -/
def leByEnglishName (a b : LocaleInfo) : Prop :=
  a.englishName ≤ b.englishName

instance : DecidableRel leByEnglishName :=
  fun a b => inferInstanceAs (Decidable (a.englishName ≤ b.englishName))

instance : IsTotal LocaleInfo leByEnglishName :=
  ⟨fun a b => le_total a.englishName b.englishName⟩

instance : IsTrans LocaleInfo leByEnglishName :=
  ⟨fun _ _ _ hab hbc => le_trans hab hbc⟩

/-- The sort performed by `getLocalesForDropdown` on the spread copy. -/
def sortByEnglishName (l : List LocaleInfo) : List LocaleInfo :=
  List.insertionSort leByEnglishName l

/-- Model of `getLocalesForDropdown()`. The source spreads the registry
into a fresh array and sorts that copy in place, so the call returns the
sorted copy and leaves the registry array untouched. Mutation is made
explicit by returning the pair (returned list, registry after the call). -/
def getLocalesForDropdown : List LocaleInfo × List LocaleInfo :=
  (sortByEnglishName SUPPORTED_LOCALES, SUPPORTED_LOCALES)

/-- Membership test `isValidLocaleCode`: `Array.prototype.some` with
`locale.code === code`. -/
def isValidLocaleCode (code : String) : Bool :=
  SUPPORTED_LOCALES.any (fun locale => locale.code == code)

/-- The `LANGUAGE_FAMILIES` table, keys in declaration order. -/
def LANGUAGE_FAMILIES : List (String × List String) :=
  [ ("GERMANIC", ["en", "de"]),
    ("ROMANCE", ["fr", "es", "pt"]),
    ("SLAVIC", ["ru"]),
    ("ASIAN", ["zh-CN", "zh-TW", "ja", "ko"]) ]

/-- The `LOCALE_REGIONS` table: locale code to region name, keys in
declaration order. -/
def LOCALE_REGIONS : List (String × String) :=
  [ ("en", "AMERICA"),
    ("zh-CN", "ASIA"),
    ("zh-TW", "ASIA"),
    ("ja", "ASIA"),
    ("ko", "ASIA"),
    ("de", "EUROPE"),
    ("fr", "EUROPE"),
    ("es", "AMERICA"),
    ("ru", "EUROPE"),
    ("pt", "AMERICA") ]

/-- The right-to-left locale set of `isRTL`: empty in the source
(reserved extension point). -/
def rtlLocales : List String := []

/-- Predicate `isRTL`: membership of the code in the (empty) RTL set. -/
def isRTL (locale : String) : Bool :=
  rtlLocales.contains locale

/-- The per-locale font table of `getFontFamily`, keys in declaration
order. -/
def fontMap : List (String × String) :=
  [ ("en", "ui-sans-serif, system-ui, -apple-system, BlinkMacSystemFont"),
    ("zh-CN", "system-ui, -apple-system, \"Microsoft YaHei\", \"PingFang SC\", sans-serif"),
    ("zh-TW", "system-ui, -apple-system, \"Microsoft JhengHei\", \"PingFang TC\", sans-serif"),
    ("ja", "system-ui, -apple-system, \"Hiragino Sans\", \"Yu Gothic\", sans-serif"),
    ("ko", "system-ui, -apple-system, \"Apple SD Gothic Neo\", \"Noto Sans KR\", sans-serif"),
    ("de", "ui-sans-serif, system-ui, -apple-system, BlinkMacSystemFont"),
    ("fr", "ui-sans-serif, system-ui, -apple-system, BlinkMacSystemFont"),
    ("es", "ui-sans-serif, system-ui, -apple-system, BlinkMacSystemFont"),
    ("ru", "ui-sans-serif, system-ui, -apple-system, BlinkMacSystemFont"),
    ("pt", "ui-sans-serif, system-ui, -apple-system, BlinkMacSystemFont") ]

/-- Key lookup in the font table (`fontMap[locale]`): `none` models
`undefined` for a missing key. -/
def fontLookup (locale : String) : Option String :=
  (fontMap.find? (fun p => p.1 == locale)).map (fun p => p.2)

/-- The source returns `fontMap[locale] || fontMap['en']`, so a missing
key - or an empty-string entry, by JS falsiness - falls back to the
`'en'` entry. -/
def getFontFamily (locale : String) : String :=
  match fontLookup locale with
  | some s => if s = "" then (fontLookup "en").getD "" else s
  | none => (fontLookup "en").getD ""

/-- Decidable substring test on the character lists of two strings, used
to state the "contains PingFang SC" property. -/
def containsSubstring (s pat : String) : Bool :=
  (List.range (s.data.length + 1)).any
    (fun i => (s.data.drop i).take pat.data.length == pat.data)

/-- The `LOCALE_GROUPS` table in declaration order of its keys: `ALL`
(every registry code) is declared first, then `ASIAN`, `EUROPEAN`,
`ENGLISH_BASED`, `SPANISH_PORTUGUESE`. -/
def LOCALE_GROUPS : List (String × List String) :=
  [ ("ALL", SUPPORTED_LOCALES.map (fun l => l.code)),
    ("ASIAN", ["zh-CN", "zh-TW", "ja", "ko"]),
    ("EUROPEAN", ["de", "fr", "ru", "pt"]),
    ("ENGLISH_BASED", ["en"]),
    ("SPANISH_PORTUGUESE", ["es", "pt"]) ]

/-- The loop body of `getLocaleGroup`: walk the bucket list in order,
return the first bucket whose member list `includes` the code, else the
singleton fallback. -/
def findGroup (locale : String) : List (String × List String) → List String
  | [] => [locale]
  | g :: rest => if locale ∈ g.2 then g.2 else findGroup locale rest

/-- Helper `getLocaleGroup`: iterates `Object.entries(LOCALE_GROUPS)` in
declaration order. -/
def getLocaleGroup (locale : String) : List String :=
  findGroup locale LOCALE_GROUPS

/-- When no bucket of the list contains the code, the loop falls through
to the singleton fallback. -/
theorem findGroup_eq_single (locale : String) (gs : List (String × List String))
    (h : ∀ g ∈ gs, locale ∉ g.2) : findGroup locale gs = [locale] := by
  induction gs with
  | nil => rfl
  | cons g rest ih =>
    have hg : locale ∉ g.2 := h g (List.mem_cons_self g rest)
    simp only [findGroup, if_neg hg]
    exact ih (fun q hq => h q (List.mem_cons_of_mem g hq))

/-- The loop returns the first bucket containing the code: if the bucket
list splits as `pre ++ b :: post` with the code in `b` but in no bucket
of `pre`, the result is `b`'s member list. -/
theorem findGroup_eq_first (locale : String) (b : String × List String)
    (post : List (String × List String)) (hmem : locale ∈ b.2) :
    ∀ prev : List (String × List String), (∀ g ∈ prev, locale ∉ g.2) →
      findGroup locale (prev ++ b :: post) = b.2 := by
  intro prev
  induction prev with
  | nil =>
    intro _
    simp only [List.nil_append, findGroup, if_pos hmem]
  | cons g rest ih =>
    intro hprev
    have hg : locale ∉ g.2 := hprev g (List.mem_cons_self g rest)
    simp only [List.cons_append, findGroup, if_neg hg]
    exact ih (fun q hq => hprev q (List.mem_cons_of_mem g hq))

/-- Any code is a member of whatever list the loop returns. -/
theorem mem_findGroup (locale : String) :
    ∀ gs : List (String × List String), locale ∈ findGroup locale gs := by
  intro gs
  induction gs with
  | nil => exact List.mem_singleton.mpr rfl
  | cons g rest ih =>
    by_cases hg : locale ∈ g.2
    · simp only [findGroup, if_pos hg]; exact hg
    · simp only [findGroup, if_neg hg]; exact ih

/-- C2: for every input code, `getLocaleGroup` returns the member list of
the first bucket, in declaration order of `LOCALE_GROUPS`, that contains
the code, and the singleton of the input when no bucket contains it; a
code in several buckets therefore resolves to the first-declared one. -/
theorem getLocaleGroup_first_match (code : String) :
    ((∀ g ∈ LOCALE_GROUPS, code ∉ g.2) → getLocaleGroup code = [code]) ∧
    (∀ pre b post, LOCALE_GROUPS = pre ++ b :: post → code ∈ b.2 →
      (∀ g ∈ pre, code ∉ g.2) → getLocaleGroup code = b.2) := by
  constructor
  · intro h
    exact findGroup_eq_single code LOCALE_GROUPS h
  · intro pre b post heq hmem hpre
    show findGroup code LOCALE_GROUPS = b.2
    rw [heq]
    exact findGroup_eq_first code b post hmem pre hpre

/-- Witness for C2: `xx-unknown` lies in no bucket and gets the singleton
fallback; `ja` lies in the first-declared bucket `ALL` (and also in
`ASIAN`) and resolves to `ALL`. -/
theorem getLocaleGroup_first_match_witness :
    getLocaleGroup "xx-unknown" = ["xx-unknown"] ∧
    getLocaleGroup "ja" = ["en", "zh-CN", "zh-TW", "ja", "ko", "de", "fr", "es", "ru", "pt"] := by
  constructor
  · exact (getLocaleGroup_first_match "xx-unknown").1 (by decide)
  · exact (getLocaleGroup_first_match "ja").2 []
      ("ALL", ["en", "zh-CN", "zh-TW", "ja", "ko", "de", "fr", "es", "ru", "pt"])
      [ ("ASIAN", ["zh-CN", "zh-TW", "ja", "ko"]),
        ("EUROPEAN", ["de", "fr", "ru", "pt"]),
        ("ENGLISH_BASED", ["en"]),
        ("SPANISH_PORTUGUESE", ["es", "pt"]) ]
      (by decide) (by decide) (by decide)

/-- C1 counterexample: `getLocaleGroup 'ja'` does not return the
Asian-locale bucket: the `ALL` bucket is declared first in
`LOCALE_GROUPS` and already contains `ja`, so the result is the full
code list, not `['zh-CN', 'zh-TW', 'ja', 'ko']`. -/
theorem getLocaleGroup_ja_counterexample :
    getLocaleGroup "ja" ≠ ["zh-CN", "zh-TW", "ja", "ko"] := by decide

/-- C1 amended: `getLocaleGroup 'ja'` returns the first-declared bucket
`ALL`, the list of all ten registry codes in declaration order (which
contains `ja`); the `ASIAN` bucket of `LOCALE_GROUPS` contains exactly
`zh-CN`, `zh-TW`, `ja`, `ko`; and `getLocaleGroup 'xx-unknown'` returns
the singleton of the input. -/
theorem getLocaleGroup_ja_amended :
    getLocaleGroup "ja" = ["en", "zh-CN", "zh-TW", "ja", "ko", "de", "fr", "es", "ru", "pt"] ∧
    "ja" ∈ getLocaleGroup "ja" ∧
    ("ASIAN", ["zh-CN", "zh-TW", "ja", "ko"]) ∈ LOCALE_GROUPS ∧
    getLocaleGroup "xx-unknown" = ["xx-unknown"] := by decide

/-- C10: for every input code, the list returned by `getLocaleGroup`
contains the code itself, and in particular is non-empty. -/
theorem getLocaleGroup_contains_input (code : String) :
    code ∈ getLocaleGroup code ∧ getLocaleGroup code ≠ [] := by
  have h : code ∈ getLocaleGroup code := mem_findGroup code LOCALE_GROUPS
  exact ⟨h, List.ne_nil_of_mem h⟩

/-- Witness for C10 at the concrete code `pt`. -/
theorem getLocaleGroup_contains_input_witness :
    "pt" ∈ getLocaleGroup "pt" ∧ getLocaleGroup "pt" ≠ [] :=
  getLocaleGroup_contains_input "pt"

/-- C3: for every code that is not the code of any registry record, the
lookup returns `none`, the display formatter returns the input unchanged
(for either flag setting), and validation returns `false`. All three
operations are total Lean functions, so none of them can fail. -/
theorem unknown_code_graceful (code : String)
    (h : code ∉ SUPPORTED_LOCALES.map (fun l => l.code)) :
    getLocaleInfo code = none ∧
    getLocaleDisplayString code true = code ∧
    getLocaleDisplayString code false = code ∧
    isValidLocaleCode code = false := by
  have hfind : getLocaleInfo code = none := by
    rw [getLocaleInfo, List.find?_eq_none]
    intro l hl hb
    exact h (List.mem_map.mpr ⟨l, hl, eq_of_beq hb⟩)
  refine ⟨hfind, ?_, ?_, ?_⟩
  · rw [getLocaleDisplayString, hfind]
  · rw [getLocaleDisplayString, hfind]
  · rw [isValidLocaleCode]
    cases hany : SUPPORTED_LOCALES.any (fun locale => locale.code == code) with
    | false => rfl
    | true =>
      obtain ⟨l, hl, hb⟩ := List.any_eq_true.mp hany
      exact absurd (List.mem_map.mpr ⟨l, hl, eq_of_beq hb⟩) h

/-- Witness for C3 at the concrete unknown code `xx-unknown`. -/
theorem unknown_code_graceful_witness :
    getLocaleInfo "xx-unknown" = none ∧
    getLocaleDisplayString "xx-unknown" true = "xx-unknown" ∧
    getLocaleDisplayString "xx-unknown" false = "xx-unknown" ∧
    isValidLocaleCode "xx-unknown" = false :=
  unknown_code_graceful "xx-unknown" (by decide)

/-- C4: the dropdown list is a permutation of the canonical registry,
sorted ascending by `englishName`; the registry after the call is the
unchanged `SUPPORTED_LOCALES` (the sort acts on a defensive copy); and
re-sorting the returned list leaves it fixed, so repeated calls agree. -/
theorem dropdown_sorted_permutation :
    getLocalesForDropdown.1.Perm SUPPORTED_LOCALES ∧
    List.Sorted leByEnglishName getLocalesForDropdown.1 ∧
    getLocalesForDropdown.2 = SUPPORTED_LOCALES ∧
    sortByEnglishName getLocalesForDropdown.1 = getLocalesForDropdown.1 := by
  refine ⟨List.perm_insertionSort leByEnglishName SUPPORTED_LOCALES,
    List.sorted_insertionSort leByEnglishName SUPPORTED_LOCALES, rfl, ?_⟩
  exact (List.sorted_insertionSort leByEnglishName SUPPORTED_LOCALES).insertionSort_eq

/-- C5: the registry holds exactly the ten stated codes in the stated
order, with the stated native names and flag glyphs; the codes are
pairwise distinct; and for every registry record, looking its code up
returns a record with that same code. -/
theorem registry_exact :
    SUPPORTED_LOCALES.map (fun l => l.code) =
      ["en", "zh-CN", "zh-TW", "ja", "ko", "de", "fr", "es", "ru", "pt"] ∧
    SUPPORTED_LOCALES.map (fun l => l.name) =
      ["English", "简体中文", "繁體中文", "日本語", "한국어",
       "Deutsch", "Français", "Español", "Русский", "Português"] ∧
    SUPPORTED_LOCALES.map (fun l => l.flag) =
      [some "🇺🇸", some "🇨🇳", some "🇹🇼", some "🇯🇵", some "🇰🇷",
       some "🇩🇪", some "🇫🇷", some "🇪🇸", some "🇷🇺", some "🇧🇷"] ∧
    (SUPPORTED_LOCALES.map (fun l => l.code)).Nodup ∧
    ∀ l ∈ SUPPORTED_LOCALES, (getLocaleInfo l.code).map (fun i => i.code) = some l.code := by
  refine ⟨rfl, rfl, rfl, by decide, by decide⟩

/-- Witness for C5: the round-trip conjunct applied to the first registry
record. -/
theorem registry_exact_witness :
    (getLocaleInfo "en").map (fun i => i.code) = some "en" :=
  registry_exact.2.2.2.2
    { code := "en", name := "English", englishName := "English", flag := some "🇺🇸" }
    (by decide)

/-- C6: the font helper returns the table entry for every explicitly
mapped code (in particular the `zh-CN` entry contains `PingFang SC`),
returns exactly the default-locale value for every unmapped code, and
never returns the empty string. -/
theorem font_family_total (code : String) :
    (∀ p ∈ fontMap, getFontFamily p.1 = p.2) ∧
    containsSubstring (getFontFamily "zh-CN") "PingFang SC" = true ∧
    (fontLookup code = none → getFontFamily code = getFontFamily DEFAULT_LOCALE) ∧
    getFontFamily code ≠ "" := by
  refine ⟨by decide, by decide, ?_, ?_⟩
  · intro h
    rw [getFontFamily, h]
    decide
  · cases h : fontLookup code with
    | none =>
      rw [getFontFamily, h]
      decide
    | some s =>
      obtain ⟨p, hp, hps⟩ := Option.map_eq_some'.mp h
      have hmem : p ∈ fontMap := List.mem_of_find?_eq_some hp
      have hne : p.2 ≠ "" := by
        have hall : ∀ q ∈ fontMap, q.2 ≠ "" := by decide
        exact hall p hmem
      have hs : s ≠ "" := hps ▸ hne
      rw [getFontFamily, h]
      show (if s = "" then (fontLookup "en").getD "" else s) ≠ ""
      rw [if_neg hs]
      exact hs

/-- Witness for C6: the unmapped code `xx-unknown` falls back to the
default locale's font stack. -/
theorem font_family_total_witness :
    getFontFamily "xx-unknown" = getFontFamily DEFAULT_LOCALE :=
  (font_family_total "xx-unknown").2.2.1 (by decide)

/-- C7: the display formatter produces `flag SP nativeName (englishName)`
when the flag is requested and present, and `nativeName (englishName)`
otherwise, for every registry record; in particular the two stated `ja`
strings. -/
theorem display_string_format :
    getLocaleDisplayString "ja" true = "🇯🇵 日本語 (Japanese)" ∧
    getLocaleDisplayString "ja" false = "日本語 (Japanese)" ∧
    ∀ l ∈ SUPPORTED_LOCALES,
      getLocaleDisplayString l.code true =
        (match l.flag with
         | some f => f ++ " " ++ l.name ++ " (" ++ l.englishName ++ ")"
         | none => l.name ++ " (" ++ l.englishName ++ ")") ∧
      getLocaleDisplayString l.code false = l.name ++ " (" ++ l.englishName ++ ")" := by
  refine ⟨by decide, by decide, by decide⟩

/-- Witness for C7: the per-record format conjunct applied to the `de`
record. -/
theorem display_string_format_witness :
    getLocaleDisplayString "de" true = "🇩🇪 Deutsch (German)" ∧
    getLocaleDisplayString "de" false = "Deutsch (German)" := by
  have h := display_string_format.2.2
    { code := "de", name := "Deutsch", englishName := "German", flag := some "🇩🇪" }
    (by decide)
  exact ⟨by rw [h.1]; decide, by rw [h.2]; decide⟩

/-- C8: referential integrity of the static tables: every locale code
appearing in the language-family buckets, as a key of the region map, or
in any batch locale group, is the code of some registry record. -/
theorem grouping_referential_integrity :
    (LANGUAGE_FAMILIES.map (fun f => f.2)).flatten ⊆ SUPPORTED_LOCALES.map (fun l => l.code) ∧
    LOCALE_REGIONS.map (fun r => r.1) ⊆ SUPPORTED_LOCALES.map (fun l => l.code) ∧
    (LOCALE_GROUPS.map (fun g => g.2)).flatten ⊆ SUPPORTED_LOCALES.map (fun l => l.code) := by
  refine ⟨?_, ?_, ?_⟩ <;> · intro c hc; revert hc; revert c; decide

/-- C9: `isRTL` is false for every registry code, and indeed for every
input, since the right-to-left set is empty. -/
theorem isRTL_always_false :
    (∀ l ∈ SUPPORTED_LOCALES, isRTL l.code = false) ∧
    ∀ code : String, isRTL code = false := by
  exact ⟨fun l _ => rfl, fun code => rfl⟩

/-- Witness for C9: the per-record conjunct applied to the first registry
record. -/
theorem isRTL_always_false_witness : isRTL "en" = false :=
  isRTL_always_false.1
    { code := "en", name := "English", englishName := "English", flag := some "🇺🇸" }
    (by decide)

end Claudian
